import Mathlib

/-!
Verification of the gate-evaluation subsystem of the harness plugin.

The definitions below are a shallow embedding of the Python sources:
  plugins/ultraharness/core/validation.py   (path sandbox)
  plugins/ultraharness/core/config.py       (config store)
  plugins/ultraharness/hooks/pre_tool_use.py (hook adapter)
Paths are modelled as lists of characters (POSIX separator conventions,
matching the deployment platform of the plugin); the filesystem effects
(canonical resolution following symlinks, existence tests) are modelled
as an oracle structure `FS` that theorems quantify over, with one
concrete lexical resolver `lexFS` used for witnesses.
-/

set_option maxRecDepth 10000

/-! ## Path sandbox: core/validation.py -/

/-- DANGEROUS_PATH_CHARS membership test: NUL, LF or CR
(validation.py line 23; the per-character loop on lines 58-61 fires
iff some dangerous character occurs in the path). -/
def containsDangerous (p : List Char) : Bool :=
  p.any (fun c => c == '\x00' || c == '\n' || c == '\r')

/-- Whether a traversal pattern match begins at the head of the list:
".." followed by a separator (pattern 1), or a separator followed by ".."
(pattern 2).  validation.py lines 26-30. -/
def travHere : List Char → Bool
  | '.' :: '.' :: c :: _ => c == '/' || c == '\\'
  | c :: '.' :: '.' :: _ => c == '/' || c == '\\'
  | _ => false

/-- Scan every suffix for a traversal-pattern match (re.search semantics). -/
def travScan : List Char → Bool
  | [] => false
  | c :: rest => travHere (c :: rest) || travScan rest

/-- PATH_TRAVERSAL_PATTERNS: leading ".." (pattern 3) or an interior
"../", "..\", "/..", "\.." occurrence (patterns 1 and 2). -/
def hasTraversal (p : List Char) : Bool :=
  (match p with | '.' :: '.' :: _ => true | _ => false) || travScan p

/-- os.path.isabs / Path.is_absolute on POSIX: leading slash. -/
def pathIsAbs : List Char → Bool
  | '/' :: _ => true
  | _ => false

/-- Split a raw path string at '/' characters. -/
def splitSlash : List Char → List (List Char)
  | [] => [[]]
  | c :: rest =>
    if c == '/' then [] :: splitSlash rest
    else
      match splitSlash rest with
      | [] => [[c]]
      | s :: ss => (c :: s) :: ss

/-- The path segments of a raw string, as pathlib parses them: empty
segments (repeated slashes) and "." segments are dropped at construction. -/
def segsOf (p : List Char) : List (List Char) :=
  (splitSlash p).filter (fun s => !(s == []) && !(s == ['.']))

/-- A pathlib Path value: absolute flag plus segments. -/
structure PyPath where
  isAbs : Bool
  segs : List (List Char)
deriving DecidableEq, Repr

/-- Filesystem oracle: `resolve ab segs` is the canonical absolute segment
list `Path(...).resolve()` produces (symlinks followed, cwd applied to a
relative input), and `pathExists` is `Path.exists`.  Theorems quantify over
this oracle; witnesses use the purely lexical `lexFS` below. -/
structure FS where
  resolve : Bool → List (List Char) → List (List Char)
  pathExists : PyPath → Bool

/-- Lexical normalization used by the witness filesystem: ".." pops a
segment, "." and empty segments vanish, no symlinks. -/
def lexNorm (segs : List (List Char)) : List (List Char) :=
  segs.foldl
    (fun acc s =>
      if s == ['.', '.'] then acc.dropLast
      else if s == ['.'] || s == [] then acc
      else acc ++ [s])
    []

/-- A concrete symlink-free filesystem on which every path exists. -/
def lexFS : FS :=
  { resolve := fun _ segs => lexNorm segs
    pathExists := fun _ => true }

/-- Reason codes of a failed validation, one per return site of
validate_path (the OSError/ValueError sites at lines 92-94 and 104-105
concern Windows drives and resolution faults, which do not arise in the
POSIX oracle model where resolution is total and always absolute). -/
inductive VReason where
  | emptyPath
  | dangerousChar
  | traversal
  | absoluteNotAllowed
  | escapesBoundary
  | doesNotExist
deriving DecidableEq, Repr, BEq

/-- Result of validate_path: the Python triple (is_valid, error, resolved)
as a tagged value. -/
inductive VResult where
  | valid (resolved : PyPath)
  | invalid (reason : VReason)
deriving DecidableEq, Repr

def VResult.isValid : VResult → Bool
  | .valid _ => true
  | .invalid _ => false

/-- os.path.commonpath on two canonical absolute segment lists: the
longest common segment prefix (a true path-segment ancestor, not a
string prefix). -/
def commonSegs : List (List Char) → List (List Char) → List (List Char)
  | x :: xs, y :: ys => if x == y then x :: commonSegs xs ys else []
  | _, _ => []

/-- validate_path (validation.py lines 33-105). -/
def validatePath (fs : FS) (path : List Char) (workDir : Option (List Char))
    (mustExist : Bool) (allowAbsolute : Bool) : VResult :=
  if path.isEmpty then .invalid .emptyPath
  else if containsDangerous path then .invalid .dangerousChar
  else if hasTraversal path then .invalid .traversal
  else if !allowAbsolute && pathIsAbs path then .invalid .absoluteNotAllowed
  else
    match workDir with
    | some wd =>
      let workResolved := fs.resolve (pathIsAbs wd) (segsOf wd)
      let resolved :=
        if pathIsAbs path then fs.resolve true (segsOf path)
        else fs.resolve true (workResolved ++ segsOf path)
      if !(commonSegs workResolved resolved == workResolved) then
        .invalid .escapesBoundary
      else if mustExist && !fs.pathExists ⟨true, resolved⟩ then
        .invalid .doesNotExist
      else .valid ⟨true, resolved⟩
    | none =>
      let resolved : PyPath :=
        if pathIsAbs path then ⟨true, fs.resolve true (segsOf path)⟩
        else ⟨false, segsOf path⟩
      if mustExist && !fs.pathExists resolved then .invalid .doesNotExist
      else .valid resolved

/-! ## sanitize_filename (validation.py lines 186-234) -/

/-- re.sub underscore collapse: a maximal run of underscores becomes one. -/
def collapseU : List Char → List Char
  | [] => []
  | [c] => [c]
  | c :: d :: rest =>
    if c == '_' && d == '_' then collapseU (d :: rest)
    else c :: collapseU (d :: rest)

/-- Characters removed from both ends by str.strip('. \t'). -/
def isStripChar (c : Char) : Bool := c == '.' || c == ' ' || c == '\t'

/-- str.strip('. \t'): drop the strip-set from both ends. -/
def stripEnds (l : List Char) : List Char :=
  ((l.dropWhile isStripChar).reverse.dropWhile isStripChar).reverse

/-- The extension part of str.rsplit('.', 1): characters after the last dot. -/
def extOf (l : List Char) : List Char :=
  (l.reverse.takeWhile (fun c => !(c == '.'))).reverse

/-- The name part of str.rsplit('.', 1): characters before the last dot. -/
def nameOf (l : List Char) : List Char :=
  l.take (l.length - (extOf l).length - 1)

/-- The truncation step of sanitize_filename (lines 217-228): when over
the limit, try to keep the extension; max_name is Python int arithmetic,
so the positivity test is over the integers. -/
def truncateName (l : List Char) (maxLength : Nat) : List Char :=
  if l.length > maxLength then
    if l.contains '.' then
      if (maxLength : Int) - (extOf l).length - 1 > 0 then
        (nameOf l).take ((maxLength : Int) - (extOf l).length - 1).toNat
          ++ '.' :: extOf l
      else l.take maxLength
    else l.take maxLength
  else l

/-- The dangerous-character str.replace calls (line 202-203): each
occurrence of NUL, LF, CR is deleted. -/
def dropDangerous (l : List Char) : List Char :=
  l.filter (fun c => !(c == '\x00' || c == '\n' || c == '\r'))

/-- Path separators replaced by underscore (line 206). -/
def sepToUnderscore (l : List Char) : List Char :=
  l.map (fun c => if c == '/' || c == '\\' then '_' else c)

/-- Characters illegal on common filesystems replaced by underscore
(line 209). -/
def illegalToUnderscore (l : List Char) : List Char :=
  l.map (fun c =>
    if c == '<' || c == '>' || c == ':' || c == '"' ||
       c == '|' || c == '?' || c == '*' then '_' else c)

/-- The character-rewriting pipeline of sanitize_filename before
truncation (lines 200-215). -/
def sanitizeCore (l : List Char) : List Char :=
  stripEnds (collapseU (illegalToUnderscore (sepToUnderscore (dropDangerous l))))

/-- sanitize_filename (validation.py lines 186-234). -/
def sanitize_filename (filename : List Char) (maxLength : Nat) : List Char :=
  if filename.isEmpty then "unnamed".toList
  else if (truncateName (sanitizeCore filename) maxLength).isEmpty then
    "unnamed".toList
  else truncateName (sanitizeCore filename) maxLength

/-! ## Gate engine and hook adapter (hooks/pre_tool_use.py)

The gate decision itself lives in core/verification_gates.py, which the
repository does not ship among these sources (pre_tool_use.py and
shared_imports.py only import it, with an inert fallback).  `check_gate`
below is therefore modelled from the specification; `check_fic_gates` and
`mainRun` are translated from pre_tool_use.py. -/

/-- Strictness modes (config.py lines 4-7). -/
inductive Strictness where
  | relaxed
  | standard
  | strict
deriving DecidableEq, Repr, BEq

/-- Gate verdicts (GateAction / the 'allow'/'warn'/'block' strings). -/
inductive GateAction where
  | allow
  | warn
  | block
deriving DecidableEq, Repr, BEq

/-- The two gate kinds pre_tool_use.py selects between (lines 84-87). -/
inductive GateKind where
  | allowEdit
  | allowWrite
deriving DecidableEq, Repr

/-- Modelled from the spec: the gate engine `check_gate` is imported from
core/verification_gates.py, a repository module absent from these sources.
Its decision policy follows the specification (§4.3): in relaxed mode the
gate allows unconditionally with no path validation; otherwise a target
path that fails path validation yields block regardless of mode; otherwise
a phase-permitted action is allowed; otherwise standard mode warns and
strict mode blocks.  The configuration-disabled and uninitialized fast
paths of the policy are realized by the callers translated from the source
(`check_fic_gates` and `mainRun`).  `phasePermitted` is the external
workflow-phase oracle. -/
def check_gate (fs : FS) (mode : Strictness) (phasePermitted : GateKind → Bool)
    (gate : GateKind) (workDir : List Char) (filePath : List Char) : GateAction :=
  if mode = .relaxed then .allow
  else
    match validatePath fs filePath (some workDir) false true with
    | .invalid _ => .block
    | .valid _ =>
      if phasePermitted gate then .allow
      else
        match mode with
        | .relaxed => .allow
        | .standard => .warn
        | .strict => .block

/-- check_fic_gates (pre_tool_use.py lines 63-97): the FIC-gates-available
and fic_enabled fast paths, the Edit/Write filter, gate-kind selection, and
the mapping of the gate result onto the hook action. -/
def check_fic_gates (fs : FS) (mode : Strictness)
    (ficAvailable ficEnabled : Bool) (phasePermitted : GateKind → Bool)
    (workDir : List Char) (toolName : String) (filePath : List Char) : GateAction :=
  if !ficAvailable then .allow
  else if !ficEnabled then .allow
  else if !(toolName == "Edit" || toolName == "Write") then .allow
  else
    let gate : GateKind := if toolName == "Edit" then .allowEdit else .allowWrite
    match check_gate fs mode phasePermitted gate workDir filePath with
    | .block => .block
    | .warn => .warn
    | .allow => .allow

/-- One structured hook response: an optional deny decision under
hookSpecificOutput plus an optional systemMessage. -/
structure HookResponse where
  deny : Bool
  systemMessage : Option String
deriving DecidableEq, Repr

/-- The empty response `{}`. -/
def emptyResponse : HookResponse := ⟨false, none⟩

/-- The response printed by the except-branch of main (line 157). -/
def faultResponse (e : String) : HookResponse :=
  ⟨false, some ("[Harness] PreToolUse hook error: " ++ e)⟩

/-- What one invocation of main emits and how it terminates. -/
structure MainOut where
  emitted : List HookResponse
  exitCode : Nat
deriving DecidableEq, Repr

/-- The fixed block note appended to messages on a block (line 142). -/
def blockNote : String :=
  "\n[FIC Gate: Operation blocked. Complete prior phase first.]"

/-- main (pre_tool_use.py lines 100-161).  `input?` is the parsed stdin
payload: `none` models empty or unparsable stdin, which the source maps to
an empty request; a present payload carries tool_name and file_path.
`gateMsg` is the format_gate_message output for the gate result (external
formatting).  `fault?` models an unexpected exception raised during
evaluation, before any output is produced: the except branch converts it
into a diagnostic response, and the finally branch always exits 0. -/
def mainRun (fs : FS) (mode : Strictness) (initialized : Bool)
    (ficAvailable ficEnabled : Bool) (phasePermitted : GateKind → Bool)
    (workDir : List Char) (input? : Option (String × List Char))
    (gateMsg : String) (fault? : Option String) : MainOut :=
  match fault? with
  | some e => ⟨[faultResponse e], 0⟩
  | none =>
    if !initialized then ⟨[emptyResponse], 0⟩
    else if mode = .relaxed then ⟨[emptyResponse], 0⟩
    else
      let toolName := match input? with | some (t, _) => t | none => ""
      let filePath := match input? with | some (_, p) => p | none => []
      match check_fic_gates fs mode ficAvailable ficEnabled phasePermitted
          workDir toolName filePath with
      | .block => ⟨[⟨true, some (gateMsg ++ blockNote)⟩], 0⟩
      | .warn =>
        if gateMsg == "" then ⟨[emptyResponse], 0⟩
        else ⟨[⟨false, some gateMsg⟩], 0⟩
      | .allow => ⟨[emptyResponse], 0⟩

/-! ## Config store (core/config.py)

JSON-like configuration values.  Numeric literals are carried as exact
rationals, which is faithful here because the program only stores and
copies them (no arithmetic is ever performed on a config number by the
code under study).  Mutable Python list objects are modelled with an
explicit heap: `jref c` is the identity of a list object, and a `Heap`
maps each identity to its current contents.  `DEFAULT_CONFIG.copy()` and
`dict.copy()` duplicate dictionary structure but preserve the `jref`
inside, which is exactly how the Python shallow copies behave: the one
list value in DEFAULT_CONFIG (fic_config.research_delegation_patterns)
is shared between the module-level default and every configuration the
cache-miss path of load_config builds. -/

/-- A JSON value as config.py handles it. -/
inductive JVal where
  | jstr (s : String)
  | jbool (b : Bool)
  | jnum (q : ℚ)
  | jlist (xs : List String)
  | jref (cell : Nat)
  | jdict (entries : List (String × JVal))

/-- A heap of mutable list cells (the program's list objects hold only
strings). -/
def Heap := Nat → List String

/-- Association-list lookup (first match), modelling Python dict lookup;
keys produced by json.load are unique. -/
def lookupA {α : Type} : List (String × α) → String → Option α
  | [], _ => none
  | (k, v) :: rest, key => if k == key then some v else lookupA rest key

/-- dict assignment d[k] = v: replace the binding if present, else append. -/
def setA {α : Type} : List (String × α) → String → α → List (String × α)
  | [], key, v => [(key, v)]
  | (k, w) :: rest, key, v =>
    if k == key then (key, v) :: rest else (k, w) :: setA rest key v

/-- dict.update: fold the updates into the base dict, each one winning. -/
def dictUpdate (base updates : List (String × JVal)) : List (String × JVal) :=
  updates.foldl (fun acc kv => setA acc kv.1 kv.2) base

/-- One iteration of the merge loop in load_config (lines 129-133): a
dict-valued user entry whose key already maps to a dict merges one level
deep, anything else overwrites. -/
def mergeStep (old : Option JVal) (v : JVal) : JVal :=
  match v, old with
  | .jdict uv, some (.jdict dv) => .jdict (dictUpdate dv uv)
  | _, _ => v

/-- The merge loop of load_config over all user entries. -/
def mergeUser (cfg user : List (String × JVal)) : List (String × JVal) :=
  user.foldl (fun acc kv => setA acc kv.1 (mergeStep (lookupA acc kv.1) kv.2)) cfg

/-- The identity of the one mutable list object in DEFAULT_CONFIG. -/
def patternsCell : Nat := 0

/-- The initial contents of the research_delegation_patterns list
(config.py lines 62-65). -/
def defaultPatterns : List String :=
  ["how does", "where is", "find the", "understand",
   "explore", "investigate", "what is", "explain the"]

/-- The heap at module import: only the patterns cell is populated. -/
def initHeap : Heap := fun _ => defaultPatterns

/-- DEFAULT_CONFIG (config.py lines 26-69). -/
def DEFAULT_CONFIG : List (String × JVal) :=
  [("strictness", .jstr "standard"),
   ("auto_progress_logging", .jbool true),
   ("auto_checkpoint_suggestions", .jbool true),
   ("feature_enforcement", .jbool true),
   ("baseline_tests_on_startup", .jbool true),
   ("init_script_execution", .jbool true),
   ("browser_automation", .jbool false),
   ("significant_change_threshold", .jnum 50),
   ("checkpoint_interval_minutes", .jnum 30),
   ("test_commands", .jdict
     [("node", .jstr "npm test -- --passWithNoTests 2>&1 || true"),
      ("python", .jstr "pytest -v 2>&1 || true"),
      ("rust", .jstr "cargo test 2>&1 || true"),
      ("go", .jstr "go test ./... 2>&1 || true"),
      ("java", .jstr "mvn test 2>&1 || true")]),
   ("browser_config", .jdict
     [("headless", .jbool true),
      ("timeout", .jnum 30000),
      ("screenshot_dir", .jstr ".claude/screenshots")]),
   ("fic_enabled", .jbool true),
   ("fic_strict_gates", .jbool true),
   ("fic_auto_delegate_research", .jbool true),
   ("fic_context_tracking", .jbool true),
   ("fic_artifact_workflow", .jbool true),
   ("fic_knowledge_graph_enabled", .jbool false),
   ("fic_config", .jdict
     [("target_utilization_low", .jnum 0.40),
      ("target_utilization_high", .jnum 0.60),
      ("auto_compact_threshold", .jnum 0.70),
      ("research_confidence_threshold", .jnum 0.7),
      ("max_open_questions", .jnum 2),
      ("compaction_tool_threshold", .jnum 25),
      ("research_delegation_patterns", .jref patternsCell),
      ("preserve_essential_on_compact", .jbool true),
      ("auto_create_artifacts", .jbool true)])]

/-- The observable state of the config file on disk at one invocation:
absent, present but not valid JSON, or a parsed JSON object, each
existing state carrying its modification time. -/
inductive FileState where
  | absent
  | malformed (mtime : ℚ)
  | parsed (user : List (String × JVal)) (mtime : ℚ)

/-- The modification time the stat call observes, when the file exists. -/
def FileState.mtimeOf : FileState → Option ℚ
  | .absent => none
  | .malformed m => some m
  | .parsed _ m => some m

def FileState.isMalformed : FileState → Bool
  | .malformed _ => true
  | _ => false

/-- The cache-miss body of load_config (config.py lines 117-139): start
from DEFAULT_CONFIG.copy() with the three nested dicts re-copied — in the
heap model the copies are value-identical and keep sharing the jref cell —
then merge a successfully parsed user file; an absent file or a parse
failure leaves the defaults untouched. -/
def loadFresh : FileState → List (String × JVal)
  | .parsed user _ => mergeUser DEFAULT_CONFIG user
  | _ => DEFAULT_CONFIG

/-- The module-level _config_cache and _config_mtime dictionaries. -/
structure CacheState where
  cache : List (String × List (String × JVal))
  mtimes : List (String × ℚ)

/-- What one call of load_config returns and leaves behind; `readFile`
records whether the call opened and parsed the config file (the body of
the `if config_path.exists()` block on lines 124-138). -/
structure LoadResult where
  config : List (String × JVal)
  state : CacheState
  readFile : Bool

/-- The build path shared by a cache miss and a forced reload: construct
the merged config, record the mtime only when the parse succeeded (the
mtime write on line 136 is skipped when the exception handler fires or the
file is absent), and store the result in the cache. -/
def buildFresh (fs : FileState) (st : CacheState) (key : String) : LoadResult :=
  let config := loadFresh fs
  let mtimes :=
    match fs with
    | .parsed _ m => setA st.mtimes key m
    | _ => st.mtimes
  ⟨config, ⟨setA st.cache key config, mtimes⟩,
   match fs with | .absent => false | _ => true⟩

/-- load_config (config.py lines 84-143).  `key` is the cache key
str(config_path) derived from the working directory. -/
def loadConfig (fs : FileState) (st : CacheState) (key : String)
    (forceReload : Bool) : LoadResult :=
  match forceReload, lookupA st.cache key with
  | false, some cached =>
    match fs.mtimeOf with
    | none => ⟨cached, st, false⟩
    | some m =>
      if lookupA st.mtimes key = some m then ⟨cached, st, false⟩
      else buildFresh fs st key
  | _, _ => buildFresh fs st key

/-- The absolute flag of the path a valid result carries (true for an
invalid result, so a false value certifies a valid relative payload). -/
def VResult.carriedAbs : VResult → Bool
  | .valid r => r.isAbs
  | .invalid _ => true

/-- The value stored under fic_config / research_delegation_patterns in a
configuration. -/
def configPatterns (c : List (String × JVal)) : Option JVal :=
  match lookupA c "fic_config" with
  | some (.jdict d) => lookupA d "research_delegation_patterns"
  | _ => none

/-- Dereference the patterns value of a configuration through the heap:
the contents a Python caller observes for that list object. -/
def readPatterns (h : Heap) (c : List (String × JVal)) : Option (List String) :=
  match configPatterns c with
  | some (.jref cell) => some (h cell)
  | some (.jlist xs) => some xs
  | _ => none

/-- An in-place mutation of one list object (e.g. list.append). -/
def mutateCell (h : Heap) (cell : Nat) (f : List String → List String) : Heap :=
  fun c => if c = cell then f (h c) else h c

/-- A character the sanitized result may contain: not NUL, LF, CR, nor a
path separator. -/
def goodChar (c : Char) : Bool :=
  !(c == '\x00' || c == '\n' || c == '\r' || c == '/' || c == '\\')

/-! ## Association-list lemmas -/

theorem lookupA_setA_self {α : Type} (l : List (String × α)) (k : String) (v : α) :
    lookupA (setA l k v) k = some v := by
  induction l with
  | nil => simp [setA, lookupA]
  | cons p rest ih =>
    obtain ⟨a, w⟩ := p
    by_cases h : (a == k) = true
    · simp [setA, h, lookupA]
    · simp [setA, h, lookupA, ih]

theorem lookupA_setA_ne {α : Type} (l : List (String × α)) (k k' : String) (v : α)
    (h : k' ≠ k) : lookupA (setA l k v) k' = lookupA l k' := by
  have hkk : (k == k') = false := by simp [Ne.symm h]
  induction l with
  | nil => simp [setA, lookupA, hkk]
  | cons p rest ih =>
    obtain ⟨a, w⟩ := p
    by_cases ha : (a == k) = true
    · have ha' : a = k := by simpa using ha
      simp [setA, ha, lookupA, hkk, ha']
    · simp only [setA, ha, Bool.false_eq_true, if_false, lookupA, ih]

theorem lookupA_setA_isSome {α : Type} (l : List (String × α)) (k k' : String)
    (v : α) (h : (lookupA l k').isSome = true) :
    (lookupA (setA l k v) k').isSome = true := by
  by_cases hk : k' = k
  · subst hk; simp [lookupA_setA_self]
  · rw [lookupA_setA_ne l k k' v hk]; exact h

theorem mergeUser_nil (cfg : List (String × JVal)) : mergeUser cfg [] = cfg := rfl

theorem mergeUser_cons (cfg : List (String × JVal)) (a : String) (v : JVal)
    (rest : List (String × JVal)) :
    mergeUser cfg ((a, v) :: rest)
      = mergeUser (setA cfg a (mergeStep (lookupA cfg a) v)) rest := rfl

theorem lookupA_mergeUser_not_mem (cfg user : List (String × JVal)) (k : String)
    (h : k ∉ user.map Prod.fst) :
    lookupA (mergeUser cfg user) k = lookupA cfg k := by
  induction user generalizing cfg with
  | nil => rfl
  | cons p rest ih =>
    obtain ⟨a, v⟩ := p
    simp only [List.map_cons, List.mem_cons, not_or] at h
    rw [mergeUser_cons, ih _ h.2, lookupA_setA_ne _ _ _ _ h.1]

theorem lookupA_mergeUser_mem (cfg user : List (String × JVal)) (k : String)
    (v : JVal) (hnd : (user.map Prod.fst).Nodup) (hmem : (k, v) ∈ user) :
    lookupA (mergeUser cfg user) k = some (mergeStep (lookupA cfg k) v) := by
  induction user generalizing cfg with
  | nil => cases hmem
  | cons p rest ih =>
    obtain ⟨a, w⟩ := p
    simp only [List.map_cons, List.nodup_cons] at hnd
    rcases List.mem_cons.mp hmem with heq | htail
    · cases heq
      rw [mergeUser_cons, lookupA_mergeUser_not_mem _ _ _ hnd.1, lookupA_setA_self]
    · have hka : k ≠ a := by
        intro hk
        exact hnd.1 (hk ▸ (List.mem_map.mpr ⟨(k, v), htail, rfl⟩))
      rw [mergeUser_cons, ih _ hnd.2 htail, lookupA_setA_ne _ _ _ _ hka]

theorem lookupA_mergeUser_isSome (cfg user : List (String × JVal)) (k : String)
    (h : (lookupA cfg k).isSome = true) :
    (lookupA (mergeUser cfg user) k).isSome = true := by
  induction user generalizing cfg with
  | nil => exact h
  | cons p rest ih =>
    obtain ⟨a, v⟩ := p
    rw [mergeUser_cons]
    exact ih _ (lookupA_setA_isSome _ _ _ _ h)

theorem dictUpdate_cons (base : List (String × JVal)) (a : String) (v : JVal)
    (rest : List (String × JVal)) :
    dictUpdate base ((a, v) :: rest) = dictUpdate (setA base a v) rest := rfl

theorem lookupA_dictUpdate_not_mem (base updates : List (String × JVal))
    (k : String) (h : k ∉ updates.map Prod.fst) :
    lookupA (dictUpdate base updates) k = lookupA base k := by
  induction updates generalizing base with
  | nil => rfl
  | cons p rest ih =>
    obtain ⟨a, v⟩ := p
    simp only [List.map_cons, List.mem_cons, not_or] at h
    rw [dictUpdate_cons, ih _ h.2, lookupA_setA_ne _ _ _ _ h.1]

theorem lookupA_dictUpdate_mem (base updates : List (String × JVal)) (k : String)
    (v : JVal) (hnd : (updates.map Prod.fst).Nodup) (hmem : (k, v) ∈ updates) :
    lookupA (dictUpdate base updates) k = some v := by
  induction updates generalizing base with
  | nil => cases hmem
  | cons p rest ih =>
    obtain ⟨a, w⟩ := p
    simp only [List.map_cons, List.nodup_cons] at hnd
    rcases List.mem_cons.mp hmem with heq | htail
    · cases heq
      rw [dictUpdate_cons,
        lookupA_dictUpdate_not_mem _ _ _ hnd.1, lookupA_setA_self]
    · have hka : k ≠ a := by
        intro hk
        exact hnd.1 (hk ▸ (List.mem_map.mpr ⟨(k, v), htail, rfl⟩))
      rw [dictUpdate_cons, ih _ hnd.2 htail]

/-! ## Gate-engine helper lemmas -/

/-- The gate engine blocks whenever the target path fails validation, in
any mode other than relaxed. -/
theorem check_gate_block_of_invalid (fs : FS) (mode : Strictness)
    (pp : GateKind → Bool) (g : GateKind) (wd p : List Char)
    (hmode : mode ≠ .relaxed)
    (hinv : (validatePath fs p (some wd) false true).isValid = false) :
    check_gate fs mode pp g wd p = .block := by
  unfold check_gate
  rw [if_neg hmode]
  split
  · rfl
  · next r heq => rw [heq] at hinv; simp [VResult.isValid] at hinv

/-- The gate engine allows unconditionally in relaxed mode, whatever the
target path is (no path validation is consulted). -/
theorem check_gate_relaxed_allow (fs : FS) (pp : GateKind → Bool)
    (g : GateKind) (wd p : List Char) :
    check_gate fs .relaxed pp g wd p = .allow := by
  simp [check_gate]

/-- With the FIC gates importable and enabled and a recognized tool, the
hook's gate check returns exactly the gate engine's verdict. -/
theorem check_fic_gates_eq_gate (fs : FS) (mode : Strictness)
    (pp : GateKind → Bool) (wd p : List Char) (tool : String)
    (htool : (tool == "Edit" || tool == "Write") = true) :
    check_fic_gates fs mode true true pp wd tool p
      = check_gate fs mode pp
          (if tool == "Edit" then .allowEdit else .allowWrite) wd p := by
  unfold check_fic_gates
  simp only [Bool.not_true, Bool.false_eq_true, if_false, htool]
  cases hg : check_gate fs mode pp
      (if tool == "Edit" then .allowEdit else .allowWrite) wd p <;>
    simp [hg]

/-! ## Claim theorems: path sandbox and gates -/

/-- Claim C5: any path containing a NUL, CR or LF character is rejected
with the dangerous-character reason, for every filesystem oracle, boundary,
must-exist and allow-absolute argument: the check precedes any traversal,
absoluteness or filesystem processing, so none of those inputs can change
the outcome. -/
theorem c5_dangerous_char_always_invalid (fs : FS) (p : List Char)
    (wd : Option (List Char)) (me aa : Bool)
    (h : '\x00' ∈ p ∨ '\n' ∈ p ∨ '\r' ∈ p) :
    validatePath fs p wd me aa = .invalid .dangerousChar := by
  have hne : p.isEmpty = false := by
    cases p with
    | nil => rcases h with h | h | h <;> cases h
    | cons c rest => rfl
  have hd : containsDangerous p = true := by
    unfold containsDangerous
    rw [List.any_eq_true]
    rcases h with h | h | h
    · exact ⟨'\x00', h, by decide⟩
    · exact ⟨'\n', h, by decide⟩
    · exact ⟨'\r', h, by decide⟩
  simp [validatePath, hne, hd]

/-- Witness for C5 at a concrete input containing a LF character. -/
theorem c5_witness :
    validatePath lexFS "file\nname".toList (some "/work".toList) true false
      = .invalid .dangerousChar :=
  c5_dangerous_char_always_invalid lexFS _ _ true false (Or.inr (Or.inl (by decide)))

/-- Claim C1: with the FIC gates importable, gate enforcement enabled and
the harness initialized, a recognized file-modification action (Edit or
Write) whose target path fails validation is blocked in every non-relaxed
mode, even when the phase oracle would permit the action; and in relaxed
mode the gate engine allows unconditionally without consulting path
validation (the second conjunct holds for every path, valid or not). -/
theorem c1_invalid_path_blocks (fs : FS) (mode : Strictness)
    (pp : GateKind → Bool) (wd p : List Char) (tool : String)
    (htool : tool = "Edit" ∨ tool = "Write")
    (hmode : mode ≠ .relaxed)
    (hinv : (validatePath fs p (some wd) false true).isValid = false) :
    check_fic_gates fs mode true true pp wd tool p = .block
    ∧ ∀ (fs2 : FS) (pp2 : GateKind → Bool) (g : GateKind) (wd2 p2 : List Char),
        check_gate fs2 .relaxed pp2 g wd2 p2 = .allow := by
  constructor
  · have htool' : (tool == "Edit" || tool == "Write") = true := by
      rcases htool with h | h <;> simp [h]
    rw [check_fic_gates_eq_gate fs mode pp wd p tool htool']
    exact check_gate_block_of_invalid fs mode pp _ wd p hmode hinv
  · intro fs2 pp2 g wd2 p2
    exact check_gate_relaxed_allow fs2 pp2 g wd2 p2

/-- Witness for C1: a Write in strict mode onto a NUL-bearing path is
blocked even though the phase oracle permits everything. -/
theorem c1_witness :
    check_fic_gates lexFS .strict true true (fun _ => true) "/work".toList
      "Write" "notes\x00.md".toList = .block :=
  (c1_invalid_path_blocks lexFS .strict (fun _ => true) "/work".toList
    "notes\x00.md".toList "Write" (Or.inr rfl) (by decide) (by decide)).1

/-- Counterexample to C4 as stated: for boundary /work/project and
candidate /work/project/../../etc/passwd the result is invalid, but its
reason is the traversal-pattern reason, not the escapes-boundary reason:
the traversal regex check on the raw string fires before the boundary
computation is ever reached. -/
theorem c4_counterexample :
    validatePath lexFS "/work/project/../../etc/passwd".toList
        (some "/work/project".toList) false true = .invalid .traversal
    ∧ (VReason.traversal == VReason.escapesBoundary) = false :=
  ⟨by decide, by decide⟩

/-- Claim C4 (amended): a candidate that passes the earlier syntactic
checks (non-empty, no dangerous character, no ".." traversal pattern) and
whose canonical resolution shares less than the whole canonical boundary
as a longest common segment prefix is rejected with the escapes-boundary
reason — the comparison is segment-wise, so a string-prefix sibling such
as /home/user-evil does not pass for boundary /home/user (see the
witness); candidates containing a ".." pattern, like the example in the
original claim, are instead rejected earlier with the traversal reason. -/
theorem c4_amended_escape_reason (fs : FS) (p wd : List Char) (me : Bool)
    (hne : p.isEmpty = false)
    (hd : containsDangerous p = false)
    (ht : hasTraversal p = false)
    (hesc : (commonSegs (fs.resolve (pathIsAbs wd) (segsOf wd))
        (if pathIsAbs p then fs.resolve true (segsOf p)
         else fs.resolve true (fs.resolve (pathIsAbs wd) (segsOf wd) ++ segsOf p))
        == fs.resolve (pathIsAbs wd) (segsOf wd)) = false) :
    validatePath fs p (some wd) me true = .invalid .escapesBoundary := by
  simp [validatePath, hne, hd, ht, hesc]

/-- Witness for C4 (amended): the segment-ancestor check rejects
/home/user-evil/x against boundary /home/user even though the latter is a
string prefix of the former. -/
theorem c4_witness :
    validatePath lexFS "/home/user-evil/x".toList (some "/home/user".toList)
      false true = .invalid .escapesBoundary :=
  c4_amended_escape_reason lexFS "/home/user-evil/x".toList
    "/home/user".toList false (by decide) (by decide) (by decide) (by decide)

/-- Counterexample to C9 as stated: with no boundary directory and a
relative input, the valid result carries the original relative segments
unresolved — not a canonicalized absolute path (line 96 of validation.py
returns the Path object itself for a relative path when work_dir is
absent). -/
theorem c9_counterexample :
    validatePath lexFS "subdir/file.txt".toList none false true
        = .valid ⟨false, ["subdir".toList, "file.txt".toList]⟩
    ∧ (validatePath lexFS "subdir/file.txt".toList none false true).carriedAbs
        = false :=
  ⟨by decide, by decide⟩

/-- Claim C9 (amended): whenever validation succeeds with a boundary
directory supplied, the valid result carries the canonical resolved
absolute path — the candidate resolved on its own when absolute, resolved
against the resolved boundary when relative (first conjunct, for every
must_exist and allow_absolute argument); with no boundary directory and
must_exist false, the valid result carries the canonical resolution only
for an absolute input, while a relative input is returned as parsed,
unresolved and still relative (second conjunct). -/
theorem c9_amended_resolved_payload :
    (∀ (fs : FS) (p wd : List Char) (me aa : Bool) (r : PyPath),
       validatePath fs p (some wd) me aa = .valid r →
       r = ⟨true,
         if pathIsAbs p then fs.resolve true (segsOf p)
         else fs.resolve true
           (fs.resolve (pathIsAbs wd) (segsOf wd) ++ segsOf p)⟩)
    ∧ (∀ (fs : FS) (p : List Char) (aa : Bool),
       p.isEmpty = false → containsDangerous p = false →
       hasTraversal p = false → (!aa && pathIsAbs p) = false →
       validatePath fs p none false aa
         = .valid (if pathIsAbs p then ⟨true, fs.resolve true (segsOf p)⟩
                   else ⟨false, segsOf p⟩)) := by
  constructor
  · intro fs p wd me aa r h
    unfold validatePath at h
    by_cases h1 : p.isEmpty = true
    · rw [if_pos h1] at h; cases h
    rw [if_neg h1] at h
    by_cases h2 : containsDangerous p = true
    · rw [if_pos h2] at h; cases h
    rw [if_neg h2] at h
    by_cases h3 : hasTraversal p = true
    · rw [if_pos h3] at h; cases h
    rw [if_neg h3] at h
    by_cases h4 : (!aa && pathIsAbs p) = true
    · rw [if_pos h4] at h; cases h
    rw [if_neg h4] at h
    simp only at h
    by_cases hab : pathIsAbs p = true
    · rw [if_pos hab] at h
      rw [if_pos hab]
      split at h
      · cases h
      · split at h
        · cases h
        · injection h with h2
          exact h2.symm
    · rw [if_neg hab] at h
      rw [if_neg hab]
      split at h
      · cases h
      · split at h
        · cases h
        · injection h with h2
          exact h2.symm
  · intro fs p aa hne hd ht haa
    simp [validatePath, hne, hd, ht, haa]

/-- Witness for C9 (amended): the boundary-supplied conjunct applied to a
relative candidate under boundary /work (the payload is the resolved
absolute path), and the no-boundary conjunct at a concrete relative input
(the payload stays relative and unresolved). -/
theorem c9_witness :
    (⟨true, ["work".toList, "a.txt".toList]⟩ : PyPath)
      = ⟨true,
          if pathIsAbs "a.txt".toList
          then lexFS.resolve true (segsOf "a.txt".toList)
          else lexFS.resolve true
            (lexFS.resolve (pathIsAbs "/work".toList) (segsOf "/work".toList)
              ++ segsOf "a.txt".toList)⟩
    ∧ validatePath lexFS "notes/todo.md".toList none false true
        = .valid (if pathIsAbs "notes/todo.md".toList
                  then ⟨true, lexFS.resolve true (segsOf "notes/todo.md".toList)⟩
                  else ⟨false, segsOf "notes/todo.md".toList⟩) :=
  ⟨c9_amended_resolved_payload.1 lexFS "a.txt".toList "/work".toList false true
      ⟨true, ["work".toList, "a.txt".toList]⟩ (by decide),
   c9_amended_resolved_payload.2 lexFS "notes/todo.md".toList true
      (by decide) (by decide) (by decide) (by decide)⟩

/-- Counterexample to C3 as stated: standard mode is claimed to produce
only allow or warn, but a gate evaluation in standard mode on a path that
fails validation produces block. -/
theorem c3_counterexample :
    check_fic_gates lexFS .standard true true (fun _ => true) "/work".toList
        "Edit" "../secrets".toList = .block
    ∧ (GateAction.block == GateAction.allow) = false
    ∧ (GateAction.block == GateAction.warn) = false :=
  ⟨by decide, by decide, by decide⟩

/-- Claim C3 (amended): for a fixed gate input whose phase condition
warrants a warning (valid path, phase not permitting the action), relaxed
yields allow, standard yields warn and strict yields block; relaxed can
only ever yield allow; and standard yields allow, warn, or — only when
path validation fails — block. -/
theorem c3_amended_mode_mapping :
    (∀ (fs : FS) (pp : GateKind → Bool) (wd p : List Char) (tool : String),
       (tool == "Edit" || tool == "Write") = true →
       (validatePath fs p (some wd) false true).isValid = true →
       pp (if tool == "Edit" then GateKind.allowEdit else GateKind.allowWrite)
         = false →
       check_fic_gates fs .relaxed true true pp wd tool p = .allow
       ∧ check_fic_gates fs .standard true true pp wd tool p = .warn
       ∧ check_fic_gates fs .strict true true pp wd tool p = .block)
    ∧ (∀ (fs : FS) (avail en : Bool) (pp : GateKind → Bool) (wd p : List Char)
         (tool : String),
       check_fic_gates fs .relaxed avail en pp wd tool p = .allow)
    ∧ (∀ (fs : FS) (pp : GateKind → Bool) (wd p : List Char) (tool : String),
       check_fic_gates fs .standard true true pp wd tool p = .block →
       (validatePath fs p (some wd) false true).isValid = false) := by
  refine ⟨?_, ?_, ?_⟩
  · intro fs pp wd p tool htool hvalid hphase
    rw [check_fic_gates_eq_gate fs .relaxed pp wd p tool htool,
      check_fic_gates_eq_gate fs .standard pp wd p tool htool,
      check_fic_gates_eq_gate fs .strict pp wd p tool htool]
    refine ⟨check_gate_relaxed_allow .., ?_, ?_⟩
    · unfold check_gate
      rw [if_neg (by decide)]
      split
      · next r heq => rw [heq] at hvalid; simp [VResult.isValid] at hvalid
      · rw [hphase]
        rfl
    · unfold check_gate
      rw [if_neg (by decide)]
      split
      · rfl
      · rw [hphase]
        rfl
  · intro fs avail en pp wd p tool
    cases avail with
    | false => rfl
    | true =>
      cases en with
      | false => rfl
      | true =>
        by_cases htool : (tool == "Edit" || tool == "Write") = true
        · rw [check_fic_gates_eq_gate fs .relaxed pp wd p tool htool,
            check_gate_relaxed_allow]
        · have hf : (tool == "Edit" || tool == "Write") = false := by
            rw [Bool.not_eq_true] at htool; exact htool
          unfold check_fic_gates
          simp [hf]
  · intro fs pp wd p tool hblock
    by_cases htool : (tool == "Edit" || tool == "Write") = true
    · rw [check_fic_gates_eq_gate fs .standard pp wd p tool htool] at hblock
      unfold check_gate at hblock
      rw [if_neg (by decide)] at hblock
      rcases hv : validatePath fs p (some wd) false true with r | r
      · rw [hv] at hblock
        simp only at hblock
        by_cases hp : pp (if tool == "Edit" then GateKind.allowEdit
            else GateKind.allowWrite) = true
        · rw [hp] at hblock; simp at hblock
        · rw [Bool.not_eq_true] at hp
          rw [hp] at hblock; simp at hblock
      · rfl
    · have hf : (tool == "Edit" || tool == "Write") = false := by
        rw [Bool.not_eq_true] at htool; exact htool
      unfold check_fic_gates at hblock
      simp [hf] at hblock

/-- Witness for C3 (amended): a concrete warn-warranting input (valid
in-boundary path, phase not permitting) evaluated under all three modes. -/
theorem c3_witness :
    check_fic_gates lexFS .relaxed true true (fun _ => false) "/work".toList
        "Edit" "src/main.py".toList = .allow
    ∧ check_fic_gates lexFS .standard true true (fun _ => false) "/work".toList
        "Edit" "src/main.py".toList = .warn
    ∧ check_fic_gates lexFS .strict true true (fun _ => false) "/work".toList
        "Edit" "src/main.py".toList = .block :=
  c3_amended_mode_mapping.1 lexFS (fun _ => false) "/work".toList
    "src/main.py".toList "Edit" (by decide) (by decide) rfl

/-! ## Claim theorems: config store -/

/-- Claim C2: for every on-disk file state — absent, malformed, or a
parsed object over any key set — the freshly built configuration contains
every default key (first conjunct); a user-supplied entry takes precedence
over the default: looking its key up in the result yields exactly the
merge of the user value over the default (the user value itself unless
both sides are dicts, in which case every user-supplied inner entry wins —
third conjunct); and the scenario: a file holding only strictness=strict
yields strictness strict with every other default unchanged (fourth
conjunct, illustrated on fic_enabled). -/
theorem c2_load_merges_defaults :
    (∀ (fs : FileState) (k : String),
       (lookupA DEFAULT_CONFIG k).isSome = true →
       (lookupA (loadFresh fs) k).isSome = true)
    ∧ (∀ (user : List (String × JVal)) (mt : ℚ) (k : String) (v : JVal),
       (user.map Prod.fst).Nodup → (k, v) ∈ user →
       lookupA (loadFresh (.parsed user mt)) k
         = some (mergeStep (lookupA DEFAULT_CONFIG k) v))
    ∧ (∀ (dv uv : List (String × JVal)) (k2 : String) (v2 : JVal),
       (uv.map Prod.fst).Nodup → (k2, v2) ∈ uv →
       lookupA (dictUpdate dv uv) k2 = some v2)
    ∧ (∀ mt : ℚ,
       lookupA (loadFresh (.parsed [("strictness", .jstr "strict")] mt))
           "strictness" = some (.jstr "strict")
       ∧ lookupA (loadFresh (.parsed [("strictness", .jstr "strict")] mt))
           "fic_enabled" = some (.jbool true)
       ∧ ∀ k : String, k ≠ "strictness" →
           lookupA (loadFresh (.parsed [("strictness", .jstr "strict")] mt)) k
             = lookupA DEFAULT_CONFIG k) := by
  refine ⟨?_, ?_, ?_, ?_⟩
  · intro fs k h
    cases fs with
    | absent => exact h
    | malformed m => exact h
    | parsed user m => exact lookupA_mergeUser_isSome _ _ _ h
  · intro user mt k v hnd hmem
    exact lookupA_mergeUser_mem _ _ _ _ hnd hmem
  · intro dv uv k2 v2 hnd hmem
    exact lookupA_dictUpdate_mem _ _ _ _ hnd hmem
  · intro mt
    refine ⟨rfl, rfl, ?_⟩
    intro k hk
    show lookupA (mergeUser DEFAULT_CONFIG [("strictness", .jstr "strict")]) k
      = lookupA DEFAULT_CONFIG k
    rw [mergeUser_cons, mergeUser_nil, lookupA_setA_ne _ _ _ _ hk]

/-- Witness for C2 at the scenario input: a file carrying only a strict
strictness key, looked up after the merge. -/
theorem c2_witness :
    lookupA (loadFresh (.parsed [("strictness", .jstr "strict")] 1)) "strictness"
      = some (mergeStep (lookupA DEFAULT_CONFIG "strictness") (.jstr "strict"))
    ∧ lookupA (loadFresh (.parsed [("strictness", .jstr "strict")] 1)) "fic_enabled"
      = lookupA DEFAULT_CONFIG "fic_enabled" :=
  ⟨c2_load_merges_defaults.2.1 [("strictness", .jstr "strict")] 1 "strictness"
      (.jstr "strict") (by simp) (by simp),
   (c2_load_merges_defaults.2.2.2 1).2.2 "fic_enabled" (by simp)⟩

/-! ## Claim theorems: config cache -/

/-- Counterexample to C6 as stated: when the config file exists but is
malformed JSON, the first call records no modification time (line 136 runs
only after a successful parse), so a second call with force_reload false
and an unchanged modification time falls through the cache check and
re-reads (re-parses) the file — readFile is true on the second call, even
though the returned content is unchanged. -/
theorem c6_counterexample :
    (loadConfig (.malformed 1)
        (loadConfig (.malformed 1) ⟨[], []⟩ "k" false).state "k" false).readFile
      = true
    ∧ (loadConfig (.malformed 1)
        (loadConfig (.malformed 1) ⟨[], []⟩ "k" false).state "k" false).config
      = (loadConfig (.malformed 1) ⟨[], []⟩ "k" false).config :=
  ⟨rfl, rfl⟩

theorem loadConfig_hit_none (fs : FileState) (st : CacheState) (key : String)
    (c : List (String × JVal)) (hc : lookupA st.cache key = some c)
    (hm : fs.mtimeOf = none) :
    loadConfig fs st key false = ⟨c, st, false⟩ := by
  unfold loadConfig
  rw [hc, hm]

theorem loadConfig_hit_mtime (fs : FileState) (st : CacheState) (key : String)
    (c : List (String × JVal)) (m : ℚ) (hc : lookupA st.cache key = some c)
    (hm : fs.mtimeOf = some m) (hmt : lookupA st.mtimes key = some m) :
    loadConfig fs st key false = ⟨c, st, false⟩ := by
  unfold loadConfig
  simp only [hc, hm]
  rw [if_pos hmt]

theorem loadConfig_miss (fs : FileState) (st : CacheState) (key : String)
    (hc : lookupA st.cache key = none) :
    loadConfig fs st key false = buildFresh fs st key := by
  unfold loadConfig
  rw [hc]

theorem loadConfig_stale (fs : FileState) (st : CacheState) (key : String)
    (c : List (String × JVal)) (m : ℚ) (hc : lookupA st.cache key = some c)
    (hm : fs.mtimeOf = some m) (hmt : ¬ lookupA st.mtimes key = some m) :
    loadConfig fs st key false = buildFresh fs st key := by
  unfold loadConfig
  simp only [hc, hm]
  rw [if_neg hmt]

theorem buildFresh_cache (fs : FileState) (st : CacheState) (key : String) :
    (buildFresh fs st key).state.cache = setA st.cache key (loadFresh fs) := rfl

theorem buildFresh_mtimes_parsed (u : List (String × JVal)) (m : ℚ)
    (st : CacheState) (key : String) :
    (buildFresh (.parsed u m) st key).state.mtimes = setA st.mtimes key m := rfl

theorem buildFresh_mtimes_malformed (m : ℚ) (st : CacheState) (key : String) :
    (buildFresh (.malformed m) st key).state.mtimes = st.mtimes := rfl

/-- Claim C6 (amended): two successive loads with force_reload false and
an unchanged file always return equal content; and the second call does
not re-read the file whenever the file is absent or was successfully
parsed on the first call — only a malformed existing file (whose parse
failure leaves no recorded modification time) makes the second call read
the file again. -/
theorem c6_amended_cached_idempotence (fs : FileState) (st : CacheState)
    (key : String) :
    (loadConfig fs (loadConfig fs st key false).state key false).config
      = (loadConfig fs st key false).config
    ∧ (fs.isMalformed = false →
       (loadConfig fs (loadConfig fs st key false).state key false).readFile
         = false) := by
  cases fs with
  | absent =>
    cases hc : lookupA st.cache key with
    | some c =>
      rw [loadConfig_hit_none .absent st key c hc rfl]
      rw [loadConfig_hit_none .absent st key c hc rfl]
      exact ⟨rfl, fun _ => rfl⟩
    | none =>
      rw [loadConfig_miss .absent st key hc]
      have hc2 : lookupA (buildFresh .absent st key).state.cache key
          = some (loadFresh .absent) := by
        rw [buildFresh_cache]
        exact lookupA_setA_self _ _ _
      rw [loadConfig_hit_none .absent _ key _ hc2 rfl]
      exact ⟨rfl, fun _ => rfl⟩
  | parsed u m =>
    cases hc : lookupA st.cache key with
    | some c =>
      by_cases hmt : lookupA st.mtimes key = some m
      · rw [loadConfig_hit_mtime (.parsed u m) st key c m hc rfl hmt]
        rw [loadConfig_hit_mtime (.parsed u m) st key c m hc rfl hmt]
        exact ⟨rfl, fun _ => rfl⟩
      · rw [loadConfig_stale (.parsed u m) st key c m hc rfl hmt]
        have hc2 : lookupA (buildFresh (.parsed u m) st key).state.cache key
            = some (loadFresh (.parsed u m)) := by
          rw [buildFresh_cache]
          exact lookupA_setA_self _ _ _
        have hmt2 : lookupA (buildFresh (.parsed u m) st key).state.mtimes key
            = some m := by
          rw [buildFresh_mtimes_parsed]
          exact lookupA_setA_self _ _ _
        rw [loadConfig_hit_mtime (.parsed u m) _ key _ m hc2 rfl hmt2]
        exact ⟨rfl, fun _ => rfl⟩
    | none =>
      rw [loadConfig_miss _ st key hc]
      have hc2 : lookupA (buildFresh (.parsed u m) st key).state.cache key
          = some (loadFresh (.parsed u m)) := by
        rw [buildFresh_cache]
        exact lookupA_setA_self _ _ _
      have hmt2 : lookupA (buildFresh (.parsed u m) st key).state.mtimes key
          = some m := by
        rw [buildFresh_mtimes_parsed]
        exact lookupA_setA_self _ _ _
      rw [loadConfig_hit_mtime (.parsed u m) _ key _ m hc2 rfl hmt2]
      exact ⟨rfl, fun _ => rfl⟩
  | malformed m =>
    cases hc : lookupA st.cache key with
    | some c =>
      by_cases hmt : lookupA st.mtimes key = some m
      · rw [loadConfig_hit_mtime (.malformed m) st key c m hc rfl hmt]
        rw [loadConfig_hit_mtime (.malformed m) st key c m hc rfl hmt]
        exact ⟨rfl, fun _ => rfl⟩
      · rw [loadConfig_stale (.malformed m) st key c m hc rfl hmt]
        have hc2 : lookupA (buildFresh (.malformed m) st key).state.cache key
            = some (loadFresh (.malformed m)) := by
          rw [buildFresh_cache]
          exact lookupA_setA_self _ _ _
        have hmt2 : ¬ lookupA (buildFresh (.malformed m) st key).state.mtimes key
            = some m := by
          rw [buildFresh_mtimes_malformed]
          exact hmt
        rw [loadConfig_stale (.malformed m) _ key _ m hc2 rfl hmt2]
        exact ⟨rfl, fun h => Bool.noConfusion h⟩
    | none =>
      rw [loadConfig_miss _ st key hc]
      have hc2 : lookupA (buildFresh (.malformed m) st key).state.cache key
          = some (loadFresh (.malformed m)) := by
        rw [buildFresh_cache]
        exact lookupA_setA_self _ _ _
      by_cases hmt : lookupA (buildFresh (.malformed m) st key).state.mtimes key
          = some m
      · rw [loadConfig_hit_mtime (.malformed m) _ key _ m hc2 rfl hmt]
        exact ⟨rfl, fun _ => rfl⟩
      · rw [loadConfig_stale (.malformed m) _ key _ m hc2 rfl hmt]
        exact ⟨rfl, fun h => Bool.noConfusion h⟩

/-- Witness for C6 (amended): a successfully parsed (empty-object) file,
loaded twice from an empty cache: equal content and no second read. -/
theorem c6_witness :
    (loadConfig (.parsed [] 2) (loadConfig (.parsed [] 2) ⟨[], []⟩ "k" false).state
        "k" false).config
      = (loadConfig (.parsed [] 2) ⟨[], []⟩ "k" false).config
    ∧ (loadConfig (.parsed [] 2) (loadConfig (.parsed [] 2) ⟨[], []⟩ "k" false).state
        "k" false).readFile = false :=
  ⟨(c6_amended_cached_idempotence (.parsed [] 2) ⟨[], []⟩ "k").1,
   (c6_amended_cached_idempotence (.parsed [] 2) ⟨[], []⟩ "k").2 rfl⟩

/-! ## Claim theorems: default-config isolation (heap model) -/

/-- Claim C7 is a code bug: load_config's cache-miss path copies the top
dict and the three nested dicts (config.py lines 118-122), but dict.copy
is shallow, so the list object under fic_config.research_delegation_patterns
stays shared with DEFAULT_CONFIG.  The first two conjuncts exhibit the
aliasing: the freshly built configuration and the module default carry the
same heap cell.  The remaining conjuncts evaluate the consequence: an
in-place caller mutation of that list through a returned configuration
(appending one string) changes what every subsequent fresh load — with no
config file present — observes, from the original eight patterns to the
corrupted nine. -/
theorem c7_shallow_copy_corrupts_defaults :
    configPatterns (loadFresh .absent) = some (.jref patternsCell)
    ∧ configPatterns DEFAULT_CONFIG = some (.jref patternsCell)
    ∧ readPatterns initHeap (loadFresh .absent) = some defaultPatterns
    ∧ readPatterns (mutateCell initHeap patternsCell (fun l => l ++ ["injected"]))
        (loadFresh .absent) = some (defaultPatterns ++ ["injected"])
    ∧ (defaultPatterns ++ ["injected"]).length = 9
    ∧ defaultPatterns.length = 8 :=
  ⟨rfl, rfl, rfl, rfl, rfl, rfl⟩

/-! ## Claim theorems: hook adapter -/

/-- Claim C8: every invocation of the hook's main entry point — whatever
the request input, configuration, gate outcome, or injected internal
fault — emits exactly one structured response and exits with status zero
(first conjunct); and a fault during evaluation yields precisely the
diagnostic response, which carries no deny decision and a message (second
conjunct). -/
theorem c8_single_response_exit_zero :
    (∀ (fs : FS) (mode : Strictness) (init avail en : Bool)
       (pp : GateKind → Bool) (wd : List Char)
       (input? : Option (String × List Char)) (gateMsg : String)
       (fault? : Option String),
       (mainRun fs mode init avail en pp wd input? gateMsg fault?).emitted.length
           = 1
       ∧ (mainRun fs mode init avail en pp wd input? gateMsg fault?).exitCode
           = 0)
    ∧ (∀ (fs : FS) (mode : Strictness) (init avail en : Bool)
       (pp : GateKind → Bool) (wd : List Char)
       (input? : Option (String × List Char)) (gateMsg : String) (e : String),
       (mainRun fs mode init avail en pp wd input? gateMsg (some e)).emitted
           = [faultResponse e]
       ∧ (faultResponse e).deny = false
       ∧ ((faultResponse e).systemMessage).isSome = true) := by
  constructor
  · intro fs mode init avail en pp wd input? gateMsg fault?
    cases fault? with
    | some e => exact ⟨rfl, rfl⟩
    | none =>
      cases init with
      | false => exact ⟨rfl, rfl⟩
      | true =>
        cases mode with
        | relaxed => exact ⟨rfl, rfl⟩
        | standard =>
          unfold mainRun
          cases hg : check_fic_gates fs .standard avail en pp wd
              (match input? with | some (t, _) => t | none => "")
              (match input? with | some (_, p) => p | none => []) with
          | block => simp [hg]
          | warn =>
            simp only [hg]
            by_cases hm : (gateMsg == "") = true
            · simp [hm]
            · simp [hm]
          | allow => simp [hg]
        | strict =>
          unfold mainRun
          cases hg : check_fic_gates fs .strict avail en pp wd
              (match input? with | some (t, _) => t | none => "")
              (match input? with | some (_, p) => p | none => []) with
          | block => simp [hg]
          | warn =>
            simp only [hg]
            by_cases hm : (gateMsg == "") = true
            · simp [hm]
            · simp [hm]
          | allow => simp [hg]
  · intro fs mode init avail en pp wd input? gateMsg e
    exact ⟨rfl, rfl, rfl⟩

/-! ## Claim theorems: sanitize_filename -/

theorem collapseU_subset : ∀ (l : List Char), collapseU l ⊆ l := by
  intro l
  induction l with
  | nil => simp [collapseU]
  | cons c rest ih =>
    cases rest with
    | nil => simp [collapseU]
    | cons d rest2 =>
      intro x hx
      simp only [collapseU] at hx
      by_cases h : (c == '_' && d == '_') = true
      · rw [if_pos h] at hx
        exact List.mem_cons_of_mem _ (ih hx)
      · rw [if_neg h] at hx
        rcases List.mem_cons.mp hx with rfl | hx2
        · exact List.mem_cons_self _ _
        · exact List.mem_cons_of_mem _ (ih hx2)

theorem stripEnds_subset (l : List Char) : stripEnds l ⊆ l := by
  intro x hx
  unfold stripEnds at hx
  rw [List.mem_reverse] at hx
  have h1 := (List.dropWhile_sublist (l := (l.dropWhile isStripChar).reverse)
    isStripChar).subset hx
  rw [List.mem_reverse] at h1
  exact (List.dropWhile_sublist isStripChar).subset h1

theorem extOf_subset (l : List Char) : extOf l ⊆ l := by
  intro x hx
  unfold extOf at hx
  rw [List.mem_reverse] at hx
  have h1 := (List.takeWhile_sublist (l := l.reverse)
    (fun c => !(c == '.'))).subset hx
  rw [List.mem_reverse] at h1
  exact h1

theorem nameOf_subset (l : List Char) : nameOf l ⊆ l := by
  intro x hx
  exact List.take_subset _ _ hx

theorem truncateName_mem (l : List Char) (m : Nat) (x : Char)
    (hx : x ∈ truncateName l m) : x ∈ l ∨ x = '.' := by
  unfold truncateName at hx
  split at hx
  · split at hx
    · split at hx
      · rcases List.mem_append.mp hx with h1 | h2
        · exact Or.inl (nameOf_subset l (List.take_subset _ _ h1))
        · rcases List.mem_cons.mp h2 with rfl | h3
          · exact Or.inr rfl
          · exact Or.inl (extOf_subset l h3)
      · exact Or.inl (List.take_subset _ _ hx)
    · exact Or.inl (List.take_subset _ _ hx)
  · exact Or.inl hx

theorem sanitizeCore_good (l : List Char) (x : Char) (hx : x ∈ sanitizeCore l) :
    goodChar x = true := by
  unfold sanitizeCore at hx
  have hx2 := collapseU_subset _ (stripEnds_subset _ hx)
  rw [illegalToUnderscore, List.mem_map] at hx2
  obtain ⟨y, hy, rfl⟩ := hx2
  rw [sepToUnderscore, List.mem_map] at hy
  obtain ⟨z, hz, rfl⟩ := hy
  rw [dropDangerous, List.mem_filter] at hz
  obtain ⟨-, hzd⟩ := hz
  by_cases hs : (z == '/' || z == '\\') = true
  · rw [if_pos hs]
    decide
  · rw [if_neg hs]
    by_cases hi : (z == '<' || z == '>' || z == ':' || z == '"' ||
        z == '|' || z == '?' || z == '*') = true
    · rw [if_pos hi]
      decide
    · rw [if_neg hi]
      rw [Bool.not_eq_true] at hs
      simp only [Bool.or_eq_false_iff, beq_eq_false_iff_ne] at hs
      simp only [Bool.not_eq_true', Bool.or_eq_false_iff, beq_eq_false_iff_ne]
        at hzd
      obtain ⟨⟨hz1, hz2⟩, hz3⟩ := hzd
      simp [goodChar, hz1, hz2, hz3, hs.1, hs.2]

theorem truncateName_length_le (l : List Char) (m : Nat) :
    (truncateName l m).length ≤ m := by
  unfold truncateName
  split
  · next hgt =>
    split
    · next hdot =>
      split
      · next hpos =>
        rw [List.length_append, List.length_take, List.length_cons]
        have hmin := Nat.min_le_left
          (((m : Int) - (extOf l).length - 1).toNat) (nameOf l).length
        omega
      · next hnpos =>
        rw [List.length_take]
        omega
    · next hndot =>
      rw [List.length_take]
      omega
  · next hle => omega

theorem sanitize_all_good (f : List Char) (m : Nat) :
    (sanitize_filename f m).all goodChar = true := by
  have hun : ("unnamed".toList).all goodChar = true := by decide
  unfold sanitize_filename
  split
  · exact hun
  · split
    · exact hun
    · rw [List.all_eq_true]
      intro x hx
      rcases truncateName_mem _ _ _ hx with h | rfl
      · exact sanitizeCore_good f x h
      · decide

/-- Claim C10: for every input and every maximum length, the sanitized
filename is non-empty and free of NUL, CR, LF and both path separators;
and unless it is the fixed placeholder "unnamed" its length is bounded by
the maximum — so only the placeholder (7 characters) can exceed a maximum
smaller than 7. -/
theorem c10_sanitize_filename_safety (f : List Char) (m : Nat) :
    0 < (sanitize_filename f m).length
    ∧ (sanitize_filename f m).all goodChar = true
    ∧ (sanitize_filename f m = "unnamed".toList
       ∨ (sanitize_filename f m).length ≤ m) := by
  refine ⟨?_, sanitize_all_good f m, ?_⟩
  · unfold sanitize_filename
    split
    · decide
    · split
      · decide
      · next h6 =>
        rw [Bool.not_eq_true, List.isEmpty_eq_false] at h6
        exact List.length_pos.mpr h6
  · unfold sanitize_filename
    split
    · exact Or.inl rfl
    · split
      · exact Or.inl rfl
      · exact Or.inr (truncateName_length_le _ _)
